import Mathlib

/-!
Verification of `src/main.c` (periodic-task demo): a shallow embedding of
`task_params_t`, `task_fn` and `main`, with theorems about the event
sequences the program emits.

Modelling choices:
* C `int` values are modelled as `Int` (overflow is out of scope for the
  tiny constants involved).
* The observable behaviour of `task_fn` is a trace of `Act`s: the busy
  work loop, each `printf`+`fflush` (an emitted `Event`), and each
  `nanosleep` via `sleep_ms`.  The `for (int i = 1; i <= p->iterations; ...)`
  loop runs `p.iterations.toNat` times (zero when `iterations <= 0`),
  with the loop counter starting at 1.
* Because `task_fn` reads the task struct through a pointer, the struct is
  threaded through the loop as explicit state, so that non-mutation is a
  theorem about the embedding rather than an assumption.
* `main`'s behaviour is a function of the success of the two
  `pthread_create` calls and, since the two threads interleave
  nondeterministically, of an arbitrary interleaving (`Merge`) of the two
  tasks' output lines.
-/

/-- The C struct `task_params_t`: name, period in ms, iteration count. -/
structure task_params_t where
  name : String
  period_ms : Int
  iterations : Int
deriving Repr, DecidableEq

/-- Observable events printed by `task_fn`: `"[name] iteration i"` lines
and the final `"[name] done"` line. -/
inductive Event where
  | iter (name : String) (i : Int)
  | done (name : String)
deriving Repr, DecidableEq

/-- One step of the trace of `task_fn`: the busy-work loop, an emitted
event (a `printf`+`fflush`), or a call to `sleep_ms`. -/
inductive Act where
  | work
  | emit (e : Event)
  | sleep_ms (ms : Int)
deriving Repr, DecidableEq

/-- The events contained in a trace, in order. -/
def events (acts : List Act) : List Event :=
  acts.filterMap fun a =>
    match a with
    | Act.emit e => some e
    | _ => none

/-- The loop body of `task_fn`, `for (int i = 1; i <= p->iterations; i++)`,
unrolled over its remaining iteration count `fuel`, starting at loop
counter `i`.  The task struct `p` is threaded through as state (the C code
only ever reads it); each iteration performs the busy work, prints the
iteration line, and sleeps for the period. -/
def task_fn_loop : task_params_t → Int → Nat → List Act × task_params_t
  | p, _, 0 => ([], p)
  | p, i, fuel + 1 =>
    let rest := task_fn_loop p (i + 1) fuel
    (Act.work :: Act.emit (Event.iter p.name i) ::
       Act.sleep_ms p.period_ms :: rest.1, rest.2)

/-- `task_fn`: run the loop starting at `i = 1` for
`max 0 p.iterations` iterations, then print the done line.  Returns the
trace together with the final value of the task struct. -/
def task_fn (p : task_params_t) : List Act × task_params_t :=
  let loop := task_fn_loop p 1 p.iterations.toNat
  (loop.1 ++ [Act.emit (Event.done loop.2.name)], loop.2)

/-- The action trace of one execution of `task_fn`. -/
def task_fn_trace (p : task_params_t) : List Act :=
  (task_fn p).1

/-- The event sequence one execution of `task_fn` emits. -/
def task_fn_events (p : task_params_t) : List Event :=
  events (task_fn_trace p)

/-- Rendering of an event as the line `printf` produces. -/
def renderEvent : Event → String
  | Event.iter n i => "[" ++ n ++ "] iteration " ++ toString i
  | Event.done n => "[" ++ n ++ "] done"

/-- The output lines of one task's execution. -/
def taskLines (p : task_params_t) : List String :=
  (task_fn_events p).map renderEvent

/-- `task_params_t A = { "TASK_A", 10, 5 }` from `main`. -/
def task_A : task_params_t := { name := "TASK_A", period_ms := 10, iterations := 5 }

/-- `task_params_t B = { "TASK_B", 16, 5 }` from `main`. -/
def task_B : task_params_t := { name := "TASK_B", period_ms := 16, iterations := 5 }

/-- The tasks `main` constructs and launches, in order. -/
def main_tasks : List task_params_t := [task_A, task_B]

/-- Outcome of running `main`: the stdout lines, the stderr diagnostic
(`perror` prefix) if any, and the process exit code. -/
structure MainOutcome where
  stdout : List String
  diag : Option String
  exit_code : Int
deriving Repr, DecidableEq

/-- `zs` is an order-preserving interleaving of `xs` and `ys`: the
possible merged outputs of two concurrently printing threads. -/
inductive Merge : List String → List String → List String → Prop
  | nil : Merge [] [] []
  | left {x : String} {xs ys zs : List String} :
      Merge xs ys zs → Merge (x :: xs) ys (x :: zs)
  | right {y : String} {xs ys zs : List String} :
      Merge xs ys zs → Merge xs (y :: ys) (y :: zs)

/-- The driver `main`.  `createA`/`createB` tell whether the two
`pthread_create` calls succeed.  If creating thread A fails, `main`
prints a diagnostic and returns 1 before anything ran; if creating
thread B fails, `main` returns 1 immediately without joining A, so
stdout holds only whatever prefix `partialA` of A's lines happened to be
printed by then.  Otherwise `main` joins both threads, so stdout is a
complete interleaving `merged` of both tasks' lines, followed by the
hard-coded `SELF_TEST_FAIL` line, and the exit code is 0. -/
def run_main (createA createB : Bool) (partialA merged : List String) :
    MainOutcome :=
  if createA = false then
    { stdout := [], diag := some "pthread_create A", exit_code := 1 }
  else if createB = false then
    { stdout := partialA, diag := some "pthread_create B", exit_code := 1 }
  else
    { stdout := merged ++ ["SELF_TEST_FAIL"], diag := none, exit_code := 0 }

/-! ## Structural lemmas about `task_fn` -/

/-- Unroll `List.range` at the front under a `map`. -/
theorem range_map_succ_shift {α : Type} (f : Nat → α) (n : Nat) :
    (List.range (n + 1)).map f = f 0 :: (List.range n).map fun k => f (k + 1) := by
  rw [List.range_succ_eq_map]
  simp [Function.comp]

/-- The loop never modifies the task struct. -/
theorem task_fn_loop_snd (p : task_params_t) (fuel : Nat) :
    ∀ i : Int, (task_fn_loop p i fuel).2 = p := by
  induction fuel with
  | zero => intro i; rfl
  | succ n ih => intro i; simpa [task_fn_loop] using ih (i + 1)

/-- The trace of the loop: one `[work, emit, sleep]` block per iteration,
with labels counting up from the initial loop counter. -/
theorem task_fn_loop_fst (p : task_params_t) (fuel : Nat) :
    ∀ i : Int, (task_fn_loop p i fuel).1 =
      ((List.range fuel).map fun k : Nat =>
        [Act.work, Act.emit (Event.iter p.name (i + (k : Int))),
         Act.sleep_ms p.period_ms]).flatten := by
  induction fuel with
  | zero => intro i; rfl
  | succ n ih =>
    intro i
    rw [range_map_succ_shift, List.flatten_cons]
    have hfun : (fun k : Nat =>
        [Act.work, Act.emit (Event.iter p.name (i + ((k + 1 : Nat) : Int))),
         Act.sleep_ms p.period_ms]) =
        fun k : Nat =>
          [Act.work, Act.emit (Event.iter p.name (i + 1 + (k : Int))),
           Act.sleep_ms p.period_ms] := by
      funext k
      have h : i + ((k : Int) + 1) = i + 1 + (k : Int) := by ring
      push_cast
      rw [h]
    rw [hfun]
    simp [task_fn_loop, ih (i + 1)]

/-- The events of the loop trace are exactly the iteration events. -/
theorem events_task_fn_loop (p : task_params_t) (fuel : Nat) :
    ∀ i : Int, events (task_fn_loop p i fuel).1 =
      (List.range fuel).map fun k : Nat => Event.iter p.name (i + (k : Int)) := by
  induction fuel with
  | zero => intro i; rfl
  | succ n ih =>
    intro i
    rw [range_map_succ_shift]
    have hfun : (fun k : Nat => Event.iter p.name (i + ((k + 1 : Nat) : Int))) =
        fun k : Nat => Event.iter p.name (i + 1 + (k : Int)) := by
      funext k
      have h : i + ((k : Int) + 1) = i + 1 + (k : Int) := by ring
      push_cast
      rw [h]
    rw [hfun]
    simp [task_fn_loop, events, ← ih (i + 1)]

/-- The full trace of one `task_fn` execution: for each `k` below the
iteration count, a busy-work step, the iteration event labeled `k + 1`,
and a sleep of `period_ms`; then the done event. -/
theorem task_fn_trace_eq (p : task_params_t) :
    task_fn_trace p =
      ((List.range p.iterations.toNat).map fun k : Nat =>
        [Act.work, Act.emit (Event.iter p.name ((k : Int) + 1)),
         Act.sleep_ms p.period_ms]).flatten ++
      [Act.emit (Event.done p.name)] := by
  have hfun : (fun k : Nat =>
      [Act.work, Act.emit (Event.iter p.name (1 + (k : Int))),
       Act.sleep_ms p.period_ms]) =
      fun k : Nat =>
        [Act.work, Act.emit (Event.iter p.name ((k : Int) + 1)),
         Act.sleep_ms p.period_ms] := by
    funext k
    rw [Int.add_comm]
  simp only [task_fn_trace, task_fn, task_fn_loop_snd,
    task_fn_loop_fst p p.iterations.toNat 1, hfun]

/-- The event sequence of one `task_fn` execution: iteration events
labeled `1, …, max 0 iterations` in order, then the done event. -/
theorem task_fn_events_eq (p : task_params_t) :
    task_fn_events p =
      ((List.range p.iterations.toNat).map fun k : Nat =>
        Event.iter p.name ((k : Int) + 1)) ++ [Event.done p.name] := by
  have hfun : (fun k : Nat => Event.iter p.name (1 + (k : Int))) =
      fun k : Nat => Event.iter p.name ((k : Int) + 1) := by
    funext k
    rw [Int.add_comm]
  have hloop := events_task_fn_loop p p.iterations.toNat 1
  simp only [task_fn_events, task_fn_trace, task_fn, task_fn_loop_snd]
  show events (_ ++ _) = _
  rw [events, List.filterMap_append]
  rw [show List.filterMap _ (task_fn_loop p 1 p.iterations.toNat).1 =
    events (task_fn_loop p 1 p.iterations.toNat).1 from rfl, hloop, hfun]
  rfl

/-! ## Interleaving lemmas -/

/-- Concatenation is one possible interleaving. -/
theorem merge_append (xs ys : List String) : Merge xs ys (xs ++ ys) := by
  induction xs with
  | nil =>
    induction ys with
    | nil => exact Merge.nil
    | cons y ys ih => exact Merge.right ih
  | cons x xs ih => exact Merge.left ih

/-- Every element of the left list occurs in the interleaving. -/
theorem merge_mem_left {xs ys zs : List String} (h : Merge xs ys zs) :
    ∀ a ∈ xs, a ∈ zs := by
  induction h with
  | nil => intro a ha; exact absurd ha (List.not_mem_nil a)
  | left _ ih =>
    intro a ha
    rcases List.mem_cons.mp ha with h1 | h2
    · exact h1 ▸ List.mem_cons_self _ _
    · exact List.mem_cons_of_mem _ (ih a h2)
  | right _ ih => intro a ha; exact List.mem_cons_of_mem _ (ih a ha)

/-- Every element of the right list occurs in the interleaving. -/
theorem merge_mem_right {xs ys zs : List String} (h : Merge xs ys zs) :
    ∀ a ∈ ys, a ∈ zs := by
  induction h with
  | nil => intro a ha; exact absurd ha (List.not_mem_nil a)
  | left _ ih => intro a ha; exact List.mem_cons_of_mem _ (ih a ha)
  | right _ ih =>
    intro a ha
    rcases List.mem_cons.mp ha with h1 | h2
    · exact h1 ▸ List.mem_cons_self _ _
    · exact List.mem_cons_of_mem _ (ih a h2)

/-! ## Claim theorems -/

/-- C1: for every task with `iterations >= 1`, one run of `task_fn` emits
exactly `iterations` iteration events followed by exactly one completion
event, in that total order, and nothing else; in particular the completion
event is last, after the last iteration event. -/
theorem task_fn_emits_budget_then_done (p : task_params_t)
    (h : 1 ≤ p.iterations) :
    ∃ iters : List Event,
      task_fn_events p = iters ++ [Event.done p.name] ∧
      (iters.length : Int) = p.iterations ∧
      ∀ e ∈ iters, ∃ i : Int, e = Event.iter p.name i := by
  refine ⟨_, task_fn_events_eq p, ?_, ?_⟩
  · simp [Int.toNat_of_nonneg (le_trans zero_le_one h)]
  · intro e he
    simp only [List.mem_map] at he
    obtain ⟨k, _, hk⟩ := he
    exact ⟨(k : Int) + 1, hk.symm⟩

/-- Witness for C1 at the concrete task `task_A`. -/
theorem task_fn_emits_budget_then_done_witness :
    (1 : Int) ≤ task_A.iterations ∧
    ∃ iters : List Event,
      task_fn_events task_A = iters ++ [Event.done task_A.name] ∧
      (iters.length : Int) = task_A.iterations ∧
      ∀ e ∈ iters, ∃ i : Int, e = Event.iter task_A.name i :=
  ⟨by decide, task_fn_emits_budget_then_done task_A (by decide)⟩

/-- C2: for every task with `iterations >= 1`, the iteration events carry
labels `1, 2, …, iterations` in exactly that order (the `k`-th iteration
event emitted is labeled `k`), with no gaps, duplicates or reordering. -/
theorem task_fn_labels_consecutive (p : task_params_t)
    (h : 1 ≤ p.iterations) :
    task_fn_events p =
      ((List.range p.iterations.toNat).map fun k : Nat =>
        Event.iter p.name ((k : Int) + 1)) ++ [Event.done p.name] ∧
    ∀ k : Nat, k < p.iterations.toNat →
      (task_fn_events p)[k]? = some (Event.iter p.name ((k : Int) + 1)) := by
  refine ⟨task_fn_events_eq p, ?_⟩
  intro k hk
  rw [task_fn_events_eq, List.getElem?_append]
  simp [hk, List.getElem?_range hk]

/-- Witness for C2 at the concrete task `task_A`. -/
theorem task_fn_labels_consecutive_witness :
    (1 : Int) ≤ task_A.iterations ∧
    task_fn_events task_A =
      ((List.range task_A.iterations.toNat).map fun k : Nat =>
        Event.iter task_A.name ((k : Int) + 1)) ++ [Event.done task_A.name] :=
  ⟨by decide, (task_fn_labels_consecutive task_A (by decide)).1⟩

/-- C3 counterexample: the code has no validation of `iterations`.
Running `task_fn` on a task with `iterations = 0` succeeds and emits a
completion event, so the execution does not fail and does not produce
zero events. -/
theorem zero_budget_claim_counterexample :
    task_fn_events { name := "X", period_ms := 10, iterations := 0 } =
      [Event.done "X"] ∧
    task_fn_events { name := "X", period_ms := 10, iterations := 0 } ≠ [] := by
  decide

/-- C3 amended: a task with `iterations = 0` is silently run as zero
iterations — no error is raised, its whole trace is the single completion
emission (no iteration event, no sleep, no work). -/
theorem zero_budget_trace (p : task_params_t) (h : p.iterations = 0) :
    task_fn_trace p = [Act.emit (Event.done p.name)] := by
  rw [task_fn_trace_eq]
  simp [h]

/-- Witness for the amended C3 at a concrete zero-budget task. -/
theorem zero_budget_trace_witness :
    ({ name := "X", period_ms := 10, iterations := 0 } : task_params_t).iterations = 0 ∧
    task_fn_trace { name := "X", period_ms := 10, iterations := 0 } =
      [Act.emit (Event.done ({ name := "X", period_ms := 10, iterations := 0 } : task_params_t).name)] :=
  ⟨rfl, zero_budget_trace { name := "X", period_ms := 10, iterations := 0 } rfl⟩

/-- C5: for a task with `iterations >= 1` each iteration performs the
work unit, then emits its iteration event, then sleeps for the period;
since the sleep belongs to every iteration, the action immediately
preceding the completion emission is a sleep of `period_ms`. -/
theorem iteration_block_and_final_sleep (p : task_params_t)
    (h : 1 ≤ p.iterations) :
    task_fn_trace p =
      ((List.range p.iterations.toNat).map fun k : Nat =>
        [Act.work, Act.emit (Event.iter p.name ((k : Int) + 1)),
         Act.sleep_ms p.period_ms]).flatten ++
      [Act.emit (Event.done p.name)] ∧
    ∃ pre : List Act,
      task_fn_trace p =
        pre ++ [Act.sleep_ms p.period_ms, Act.emit (Event.done p.name)] := by
  refine ⟨task_fn_trace_eq p, ?_⟩
  obtain ⟨m, hm⟩ : ∃ m, p.iterations.toNat = m + 1 :=
    ⟨p.iterations.toNat - 1, by omega⟩
  refine ⟨((List.range m).map fun k : Nat =>
      [Act.work, Act.emit (Event.iter p.name ((k : Int) + 1)),
       Act.sleep_ms p.period_ms]).flatten ++
    [Act.work, Act.emit (Event.iter p.name ((m : Int) + 1))], ?_⟩
  rw [task_fn_trace_eq, hm, List.range_succ]
  simp

/-- Witness for C5 at the concrete task `task_B`. -/
theorem iteration_block_and_final_sleep_witness :
    (1 : Int) ≤ task_B.iterations ∧
    ∃ pre : List Act,
      task_fn_trace task_B =
        pre ++ [Act.sleep_ms task_B.period_ms, Act.emit (Event.done task_B.name)] :=
  ⟨by decide, (iteration_block_and_final_sleep task_B (by decide)).2⟩

/-- C7: the driver constructs and launches exactly two tasks, with the
reference configuration `TASK_A` (period 10 ms, budget 5) and `TASK_B`
(period 16 ms, budget 5). -/
theorem main_reference_config :
    main_tasks = [{ name := "TASK_A", period_ms := 10, iterations := 5 },
                  { name := "TASK_B", period_ms := 16, iterations := 5 }] ∧
    main_tasks.length = 2 := by
  exact ⟨rfl, rfl⟩

/-- C8: the task descriptor is immutable during execution — after a full
run of `task_fn`, every field of the struct is unchanged. -/
theorem task_struct_unchanged (p : task_params_t) :
    (task_fn p).2.name = p.name ∧
    (task_fn p).2.period_ms = p.period_ms ∧
    (task_fn p).2.iterations = p.iterations := by
  simp [task_fn, task_fn_loop_snd]

/-- C9: a task with `iterations <= 0` emits zero iteration events but
still exactly one completion event carrying the task's name. -/
theorem nonpositive_budget_done_only (p : task_params_t)
    (h : p.iterations ≤ 0) :
    task_fn_events p = [Event.done p.name] := by
  rw [task_fn_events_eq]
  have h0 : p.iterations.toNat = 0 := by omega
  simp [h0]

/-- Witness for C9 at a concrete task with a negative budget. -/
theorem nonpositive_budget_done_only_witness :
    ({ name := "Z", period_ms := 7, iterations := -2 } : task_params_t).iterations ≤ 0 ∧
    task_fn_events { name := "Z", period_ms := 7, iterations := -2 } =
      [Event.done ({ name := "Z", period_ms := 7, iterations := -2 } : task_params_t).name] :=
  ⟨by decide,
   nonpositive_budget_done_only { name := "Z", period_ms := 7, iterations := -2 } (by decide)⟩

/-- C10: the emitted event sequence depends only on the task's name and
iteration count, never on its period: two tasks differing only in
`period_ms` emit identical event sequences. -/
theorem task_fn_events_period_independent (p q : task_params_t)
    (hname : p.name = q.name) (hiter : p.iterations = q.iterations) :
    task_fn_events p = task_fn_events q := by
  rw [task_fn_events_eq, task_fn_events_eq, hname, hiter]

/-- Witness for C10 on two concrete tasks differing only in period. -/
theorem task_fn_events_period_independent_witness :
    task_fn_events { name := "X", period_ms := 10, iterations := 3 } =
      task_fn_events { name := "X", period_ms := 99, iterations := 3 } :=
  task_fn_events_period_independent
    { name := "X", period_ms := 10, iterations := 3 }
    { name := "X", period_ms := 99, iterations := 3 } rfl rfl

/-- C4: when both launches succeed, `main` joins both tasks and then
prints `SELF_TEST_FAIL` as the very last stdout line — after every
per-task event line, all of which are in the merged output — and exits
with code 0. -/
theorem main_success_outcome (partialA merged : List String)
    (h : Merge (taskLines task_A) (taskLines task_B) merged) :
    (run_main true true partialA merged).stdout = merged ++ ["SELF_TEST_FAIL"] ∧
    (run_main true true partialA merged).stdout.getLast? = some "SELF_TEST_FAIL" ∧
    (run_main true true partialA merged).exit_code = 0 ∧
    (∀ s ∈ taskLines task_A, s ∈ merged) ∧
    (∀ s ∈ taskLines task_B, s ∈ merged) := by
  refine ⟨rfl, ?_, rfl, merge_mem_left h, merge_mem_right h⟩
  show (merged ++ ["SELF_TEST_FAIL"]).getLast? = some "SELF_TEST_FAIL"
  rw [List.getLast?_concat]

/-- Witness for C4 at the concrete interleaving that prints all of A's
lines, then all of B's. -/
theorem main_success_outcome_witness :
    Merge (taskLines task_A) (taskLines task_B)
      (taskLines task_A ++ taskLines task_B) ∧
    (run_main true true [] (taskLines task_A ++ taskLines task_B)).exit_code = 0 ∧
    (run_main true true []
      (taskLines task_A ++ taskLines task_B)).stdout.getLast? =
        some "SELF_TEST_FAIL" :=
  ⟨merge_append _ _,
   (main_success_outcome [] _ (merge_append _ _)).2.2.1,
   (main_success_outcome [] _ (merge_append _ _)).2.1⟩

/-- C6: if a `pthread_create` call fails, `main` prints a diagnostic
naming the task whose launch failed and returns 1 at once — without
joining the other task (stdout is whatever prefix of A's lines happened
to be out, and the final status line is never printed). No retry exists:
the outcome is the failure outcome. -/
theorem main_launch_failure_aborts (partialA merged rest : List String)
    (h : partialA ++ rest = taskLines task_A) :
    ((run_main false true partialA merged).exit_code = 1 ∧
     (run_main false true partialA merged).diag = some "pthread_create A" ∧
     (run_main false true partialA merged).stdout = []) ∧
    ((run_main true false partialA merged).exit_code = 1 ∧
     (run_main true false partialA merged).diag = some "pthread_create B" ∧
     (run_main true false partialA merged).stdout = partialA ∧
     "SELF_TEST_FAIL" ∉ (run_main true false partialA merged).stdout) := by
  refine ⟨⟨rfl, rfl, rfl⟩, rfl, rfl, rfl, ?_⟩
  intro hmem
  have h1 : "SELF_TEST_FAIL" ∈ taskLines task_A := by
    rw [← h]
    exact List.mem_append_left _ (by simpa [run_main] using hmem)
  have h2 : "SELF_TEST_FAIL" ∉ taskLines task_A := by decide
  exact h2 h1

/-- Witness for C6 with no lines of A printed yet. -/
theorem main_launch_failure_aborts_witness :
    ([] : List String) ++ taskLines task_A = taskLines task_A ∧
    (run_main true false [] []).exit_code = 1 ∧
    (run_main true false [] []).diag = some "pthread_create B" :=
  ⟨rfl,
   (main_launch_failure_aborts [] [] (taskLines task_A) rfl).2.1,
   (main_launch_failure_aborts [] [] (taskLines task_A) rfl).2.2.1⟩
